import Mathlib

/-!
Verification of the Calibre Smart Device App protocol engine of the
papyrix-reader repository.

The development shallowly embeds the two protocol-role implementations:

* the C client role in lib/Calibre/calibre_network.c and
  lib/Calibre/calibre_protocol.c (message framer, exact-length receive,
  UDP discovery responder, per-opcode handlers, chunk-framed book
  transfer), and
* the C++ server role in src/network/CalibreDeviceServer.cpp (numeric
  opcodes, unconditional UDP discovery reply, raw-streaming book
  transfer).

Byte streams are modelled as lists of characters (the wire format is
ASCII text except for raw book bytes, which the embedding counts rather
than stores).  Socket reads are modelled by consuming a prefix of an
input list; a socket-level failure (timeout, disconnect) surfaces as a
distinguished result when the list is exhausted.  Stateful handlers take
an explicit environment value describing the outcome of each external
call (mkdir, open, malloc, send, one record per loop iteration for
receives) and return a result record describing the handler's visible
effects, mirroring the C control flow branch by branch.

Constants whose definitions live in lib/Calibre/calibre_internal.h (a
header the repository snapshot does not include) are modelled from the
spec where a value is fixed there, and are otherwise left as explicit
parameters of the embedded functions.
-/

/-- Error taxonomy of the library, from the error-code table of the
Calibre library documentation (calibre_wireless.h error enum): OK plus
the thirteen error kinds. -/
inductive CalibreErr where
  | ok
  | nomem
  | invalidArg
  | socket
  | connectFailed
  | timeout
  | protocol
  | jsonParse
  | auth
  | writeFile
  | sdCard
  | disconnected
  | cancelled
  | busy
deriving DecidableEq, Repr

/-! ## Decimal digits

The wire format length field is an ASCII decimal number.  The encoder
(calibre_send_msg) produces it with snprintf "%d"; the decoder
(calibre_recv_msg) reads digit characters one at a time and parses them
with strtoul.  natToDigits and digitsToNat model the two directions. -/

/-- Fuel-driven helper for natToDigits; the fuel only serves to make
the recursion structural, any fuel above the argument gives the same
result (natToDigitsAux_irrel). -/
def natToDigitsAux : Nat → Nat → List Char
  | 0, _ => []
  | fuel + 1, n =>
    if n < 10 then [Nat.digitChar n]
    else natToDigitsAux fuel (n / 10) ++ [Nat.digitChar (n % 10)]

/-- Decimal rendering of a natural number, as snprintf "%d" prints it:
most significant digit first, no leading zeros, a single zero digit for
zero. -/
def natToDigits (n : Nat) : List Char :=
  natToDigitsAux (n + 1) n

theorem natToDigitsAux_irrel :
    ∀ f₁ f₂ n, n < f₁ → n < f₂ → natToDigitsAux f₁ n = natToDigitsAux f₂ n := by
  intro f₁
  induction f₁ with
  | zero => omega
  | succ f ih =>
    intro f₂ n h₁ h₂
    cases f₂ with
    | zero => omega
    | succ g =>
      simp only [natToDigitsAux]
      split
      · rfl
      · next hn =>
        have hd : n / 10 < n := Nat.div_lt_self (by omega) (by omega)
        rw [ih g (n / 10) (by omega) (by omega)]

theorem natToDigits_eq (n : Nat) :
    natToDigits n =
      if n < 10 then [Nat.digitChar n]
      else natToDigits (n / 10) ++ [Nat.digitChar (n % 10)] := by
  show natToDigitsAux (n + 1) n = _
  simp only [natToDigitsAux]
  split
  · rfl
  · next hn =>
    have hd : n / 10 < n := Nat.div_lt_self (by omega) (by omega)
    rw [natToDigitsAux_irrel n (n / 10 + 1) (n / 10) (by omega) (by omega)]
    rfl

/-- Value of a list of ASCII digit characters, as strtoul parses it
(base 10, most significant first; the empty list parses to zero). -/
def digitsToNat (ds : List Char) : Nat :=
  ds.foldl (fun a c => 10 * a + (c.toNat - 48)) 0

/-- Decoder's digit test, literally the test of calibre_recv_msg line
410: a byte is part of the length field iff it is between the
characters zero and nine. -/
def isAsciiDigit (c : Char) : Bool :=
  decide ('0' ≤ c) && decide (c ≤ '9')

theorem digitChar_toNat_of_lt_ten {d : Nat} (h : d < 10) :
    (Nat.digitChar d).toNat = 48 + d := by
  interval_cases d <;> decide

theorem isAsciiDigit_digitChar {d : Nat} (h : d < 10) :
    isAsciiDigit (Nat.digitChar d) = true := by
  interval_cases d <;> decide

theorem natToDigits_all_digits (n : Nat) :
    ∀ c ∈ natToDigits n, isAsciiDigit c = true := by
  induction n using Nat.strong_induction_on with
  | _ n ih =>
    intro c hc
    rw [natToDigits_eq] at hc
    split at hc
    · next h =>
      simp only [List.mem_singleton] at hc
      subst hc
      exact isAsciiDigit_digitChar h
    · next h =>
      rcases List.mem_append.mp hc with h1 | h2
      · exact ih (n / 10) (Nat.div_lt_self (by omega) (by omega)) c h1
      · simp only [List.mem_singleton] at h2
        subst h2
        exact isAsciiDigit_digitChar (Nat.mod_lt _ (by omega))

theorem digitsToNat_append_singleton (ds : List Char) (c : Char) :
    digitsToNat (ds ++ [c]) = 10 * digitsToNat ds + (c.toNat - 48) := by
  simp [digitsToNat, List.foldl_append]

theorem digitsToNat_natToDigits (n : Nat) :
    digitsToNat (natToDigits n) = n := by
  induction n using Nat.strong_induction_on with
  | _ n ih =>
    rw [natToDigits_eq]
    split
    · next h =>
      simp only [digitsToNat, List.foldl_cons, List.foldl_nil]
      rw [digitChar_toNat_of_lt_ten h]
      omega
    · next h =>
      rw [digitsToNat_append_singleton,
        ih (n / 10) (Nat.div_lt_self (by omega) (by omega)),
        digitChar_toNat_of_lt_ten (Nat.mod_lt _ (by omega))]
      omega

theorem natToDigits_length_le {n k : Nat} (hk : 0 < k) (h : n < 10 ^ k) :
    (natToDigits n).length ≤ k := by
  induction n using Nat.strong_induction_on generalizing k with
  | _ n ih =>
    rw [natToDigits_eq]
    split
    · simpa using hk
    · next hn =>
      have hk2 : 2 ≤ k := by
        rcases Nat.lt_or_ge k 2 with hlt | hge
        · interval_cases k <;> simp_all <;> omega
        · exact hge
      have hdiv : n / 10 < 10 ^ (k - 1) := by
        have hmul : n < 10 * 10 ^ (k - 1) := by
          have hpow : 10 * 10 ^ (k - 1) = 10 ^ k := by
            have hk1 : k - 1 + 1 = k := by omega
            calc 10 * 10 ^ (k - 1) = 10 ^ (k - 1 + 1) := by ring
              _ = 10 ^ k := by rw [hk1]
          omega
        exact Nat.div_lt_of_lt_mul hmul
      have := ih (n / 10) (Nat.div_lt_self (by omega) (by omega))
        (k := k - 1) (by omega) hdiv
      simp only [List.length_append, List.length_singleton]
      omega

/-! ## Message framer (calibre_network.c lines 364 to 482)

The wire format is a decimal length immediately followed by a JSON array
of two elements, with no separator.  The first non-digit byte both
terminates the length field and is the first content byte. -/

/-- Empty JSON object, the serialization of an omitted or empty
payload. -/
def emptyObj : List Char := ['{', '}']

/-- Body built by calibre_send_msg lines 373 to 377: an open bracket, the
quoted opcode, a comma and one space, the payload (or an empty object
when the payload is empty), and a close bracket. -/
def buildMsg (opcode payload : List Char) : List Char :=
  '[' :: '"' :: opcode ++ '"' :: ',' :: ' ' ::
    (if payload = [] then emptyObj else payload) ++ [']']

/-- Embedding of calibre_send_msg (calibre_network.c lines 364 to 394).
The bufSize parameter stands for CALIBRE_JSON_BUF_SIZE, whose defining
header is not part of the repository snapshot.  The function returns the
full byte sequence put on the wire, namely the decimal length of the
body followed immediately by the body, or none when the body does not
fit the message buffer (the CALIBRE_ERR_NOMEM path). -/
def calibre_send_msg (opcode payload : List Char) (bufSize : Nat) :
    Option (List Char) :=
  let msg := buildMsg opcode payload
  if msg.length ≥ bufSize then none
  else some (natToDigits msg.length ++ msg)

/-- One pass of the length-field loop of calibre_recv_msg lines 406 to
415.  The fuel argument counts the remaining free slots of the 16-byte
length buffer (15 digit positions); acc accumulates the digits read so
far in reverse.  The result is the digit list, the terminating non-digit
byte when one was read, and the unconsumed remainder of the stream; none
models the transport failing before the field is complete. -/
def readLenAux : Nat → List Char → List Char →
    Option (List Char × Option Char × List Char)
  | 0, acc, s => some (acc.reverse, none, s)
  | _ + 1, _, [] => none
  | fuel + 1, acc, c :: rest =>
    if isAsciiDigit c then readLenAux fuel (c :: acc) rest
    else some (acc.reverse, some c, rest)

/-- Length-field read of calibre_recv_msg: at most 15 digits, stopping
at the first non-digit byte. -/
def readLenField (s : List Char) :
    Option (List Char × Option Char × List Char) :=
  readLenAux 15 [] s

/-- Result of decoding one framed message. -/
inductive DecodeResult where
  /-- Successful decode: extracted opcode, payload span (a suffix of the
  message body), and the unconsumed remainder of the input stream. -/
  | ok (opcode payload rest : List Char)
  /-- Decode failed with the given error; rest is the unconsumed
  remainder of the input stream at the point of failure. -/
  | err (e : CalibreErr) (rest : List Char)
  /-- The input stream was exhausted before the decoder had all the
  bytes it asked the transport for (abstracting the socket-level
  timeout, disconnect and cancellation results of tcp_recv_exact). -/
  | transportErr
deriving DecidableEq, Repr

/-- Scan for the byte after the first double quote, as strchr at
calibre_recv_msg line 452 locates the opening quote of the opcode.
strchr reads its argument as a C string, so the scan stops (not found)
at the first NUL byte. -/
def afterFirstQuote : List Char → Option (List Char)
  | [] => none
  | c :: t =>
    if c = '"' then some t
    else if c = Char.ofNat 0 then none
    else afterFirstQuote t

/-- Split at the next double quote, as strchr at line 459 locates the
closing quote of the opcode: the characters before it and the
characters after it.  As with afterFirstQuote, the scan stops at the
first NUL byte. -/
def spanToQuote : List Char → Option (List Char × List Char)
  | [] => none
  | c :: t =>
    if c = '"' then some ([], t)
    else if c = Char.ofNat 0 then none
    else (spanToQuote t).map (fun p => (c :: p.1, p.2))

/-- Embedding of calibre_recv_msg (calibre_network.c lines 396 to 482)
over a fully buffered input stream.  The maxLen parameter stands for
CALIBRE_MAX_MSG_LEN, whose defining header is not part of the
repository snapshot (the spec fixes only its role as a hard ceiling).
The decoder reads the length field digit by digit and rejects a parsed
length of zero or above the ceiling with a protocol error before
touching any content byte.  On a valid length, line 417 has already
overwritten the saved terminating non-digit with the NUL that ends the
digit string for strtoul, and line 437 copies that very cell, so
content offset zero always receives the NUL byte (the terminator byte
was consumed from the socket but is not preserved); the remaining
length minus one bytes follow.  The opcode extraction (strchr at lines
452 and 459) reads the buffer as a C string and therefore stops at the
first NUL: it finds no opening quote, and every decode that reaches
this point fails with a JSON parse error.  The tail of the function
(opcode truncated to the 31 characters of the 32-byte opcode buffer,
payload span after the closing quote and the separators), unreachable
because of the clobbered first byte, is embedded all the same. -/
def calibre_recv_msg (stream : List Char) (maxLen : Nat) : DecodeResult :=
  match readLenField stream with
  | none => .transportErr
  | some (digits, _term, rest) =>
    let msgLen := digitsToNat digits
    if msgLen = 0 ∨ msgLen > maxLen then .err .protocol rest
    else
      let first := Char.ofNat 0
      if rest.length < msgLen - 1 then .transportErr
      else
        let content := first :: rest.take (msgLen - 1)
        let rest2 := rest.drop (msgLen - 1)
        match afterFirstQuote content with
        | none => .err .jsonParse rest2
        | some afterOpen =>
          match spanToQuote afterOpen with
          | none => .err .jsonParse rest2
          | some (opRaw, afterClose) =>
            let opcode := if opRaw.length ≥ 32 then opRaw.take 31 else opRaw
            let payload :=
              afterClose.dropWhile (fun c => c = ',' || c = ' ' || c = '\t')
            .ok opcode payload rest2

/-! ## Framer lemmas -/

theorem readLenAux_digits :
    ∀ (ds : List Char) (fuel : Nat) (acc : List Char) (c : Char)
      (rest : List Char),
      (∀ d ∈ ds, isAsciiDigit d = true) → ds.length < fuel →
      isAsciiDigit c = false →
      readLenAux fuel acc (ds ++ c :: rest) =
        some (acc.reverse ++ ds, some c, rest) := by
  intro ds
  induction ds with
  | nil =>
    intro fuel acc c rest _ hlen hc
    cases fuel with
    | zero => omega
    | succ f => simp [readLenAux, hc]
  | cons d ds ih =>
    intro fuel acc c rest hds hlen hc
    cases fuel with
    | zero => simp at hlen
    | succ f =>
      have hd : isAsciiDigit d = true := hds d (List.mem_cons_self d ds)
      simp only [List.cons_append, readLenAux, hd, if_true, List.append_eq]
      rw [ih f (d :: acc) c rest
        (fun x hx => hds x (List.mem_cons_of_mem d hx)) (by simpa using hlen) hc]
      simp

theorem readLenAux_consumes :
    ∀ (fuel : Nat) (acc s digits : List Char) (term : Option Char)
      (rest : List Char),
      readLenAux fuel acc s = some (digits, term, rest) →
      acc.reverse ++ s = digits ++ term.toList ++ rest ∧
        digits.length ≤ acc.length + fuel := by
  intro fuel
  induction fuel with
  | zero =>
    intro acc s digits term rest h
    simp only [readLenAux, Option.some.injEq, Prod.mk.injEq] at h
    obtain ⟨h1, h2, h3⟩ := h
    subst h1; subst h2; subst h3
    simp
  | succ f ih =>
    intro acc s digits term rest h
    cases s with
    | nil => simp [readLenAux] at h
    | cons c t =>
      by_cases hc : isAsciiDigit c = true
      · simp only [readLenAux, hc, if_true] at h
        have := ih (c :: acc) t digits term rest h
        constructor
        · rw [← this.1]; simp
        · have := this.2; simp at this ⊢; omega
      · simp only [readLenAux, eq_false_of_ne_true hc, Bool.false_eq_true,
          if_false, Option.some.injEq, Prod.mk.injEq] at h
        obtain ⟨h1, h2, h3⟩ := h
        subst h1; subst h2; subst h3
        simp

/-- C6: the decoder rejects a parsed length of zero and a parsed length
above the ceiling with a protocol error, and at that point it has
consumed only the length field and its terminating non-digit byte (at
most 15 bytes in total, the capacity of the length buffer): the
returned remainder is exactly the input minus those bytes, so no
content byte has been read from the socket. -/
theorem calibre_recv_msg_rejects_bad_length
    (s : List Char) (maxLen : Nat) (digits : List Char) (term : Option Char)
    (rest : List Char)
    (hread : readLenField s = some (digits, term, rest))
    (hbad : digitsToNat digits = 0 ∨ digitsToNat digits > maxLen) :
    calibre_recv_msg s maxLen = .err .protocol rest ∧
      s = digits ++ term.toList ++ rest ∧ digits.length ≤ 15 := by
  have hcons := readLenAux_consumes 15 [] s digits term rest hread
  refine ⟨?_, by simpa using hcons.1, by simpa using hcons.2⟩
  simp only [calibre_recv_msg, hread]
  rw [if_pos hbad]

/-- Witness for calibre_recv_msg_rejects_bad_length: a stream whose
length field parses to zero is rejected with a protocol error while
only the length field and the bracket have been consumed. -/
theorem calibre_recv_msg_rejects_bad_length_witness :
    calibre_recv_msg ('0' :: '[' :: 'x' :: 'y' :: []) 65536 =
      .err .protocol ['x', 'y'] :=
  (calibre_recv_msg_rejects_bad_length ('0' :: '[' :: 'x' :: 'y' :: [])
    65536 ['0'] (some '[') ['x', 'y'] (by decide) (by decide)).1

/-- True exactly on a successful decode. -/
def DecodeResult.isOk : DecodeResult → Bool
  | .ok _ _ _ => true
  | _ => false

theorem afterFirstQuote_nul (t : List Char) :
    afterFirstQuote (Char.ofNat 0 :: t) = none := by
  rw [afterFirstQuote, if_neg (by decide), if_pos rfl]

/-- C5: the framer round trip is broken by the decoder, not merely
reshaped.  Encoding the NOOP message with the empty-object payload
yields the fourteen-byte stream below, and decoding that stream fails
with a JSON parse error instead of returning the opcode and payload:
line 417 of calibre_recv_msg overwrites the saved terminating non-digit
(the open bracket) with NUL before line 437 copies that cell to content
offset zero, so the opcode scan, a strchr over a C string that now
starts with NUL, finds no quote.  The third conjunct shows the failure
is total: no input stream whatever makes the decoder return a
successful decode, so encode followed by decode never yields any
opcode or payload at all. -/
theorem calibre_recv_msg_clobbered :
    calibre_send_msg ("NOOP".toList) emptyObj 2048 =
      some ['1', '2', '[', '"', 'N', 'O', 'O', 'P', '"', ',', ' ',
        '{', '}', ']'] ∧
    calibre_recv_msg ['1', '2', '[', '"', 'N', 'O', 'O', 'P', '"', ',', ' ',
      '{', '}', ']'] 65536 = .err .jsonParse [] ∧
    (∀ (s : List Char) (maxLen : Nat),
      (calibre_recv_msg s maxLen).isOk = false) := by
  refine ⟨by decide, by decide, ?_⟩
  intro s maxLen
  simp only [calibre_recv_msg]
  split
  · rfl
  · split
    · rfl
    · split
      · rfl
      · rw [afterFirstQuote_nul]
        rfl

/-! ## Exact-length receive (calibre_network.c lines 305 to 362)

The receive loop of tcp_recv_exact checks, on every pass through the
loop top: the cancellation flag, then the elapsed time against the
deadline, then waits for readability with select, then calls recv.
Each pass is modelled by one environment record. -/

/-- Outcome of the select readiness wait in one pass of the loop:
negative with errno EINTR (retry), negative otherwise (socket error),
zero (wait timed out), or positive (data readable). -/
inductive SelectRes where
  | intr
  | fail
  | timedOut
  | ready
deriving DecidableEq, Repr

/-- Outcome of the recv call in one pass of the loop: negative with
EAGAIN, EWOULDBLOCK or EINTR (retry), negative otherwise (socket
error), or a non-negative byte count; a count of zero means the peer
closed the connection, and a positive count delivers at most the
remaining requested bytes, as a socket never returns more than asked
for. -/
inductive RecvRes where
  | wouldBlock
  | fail
  | bytes (n : Nat)
deriving DecidableEq, Repr

/-- Environment of one pass through the top of the tcp_recv_exact loop:
the cancellation flag as observed at the check of line 313, the elapsed
milliseconds as computed at line 319, and the outcomes of the select
and recv calls of that pass. -/
structure RecvIter where
  cancelled : Bool
  elapsedMs : Nat
  sel : SelectRes
  rcv : RecvRes
deriving DecidableEq, Repr

/-- Embedding of tcp_recv_exact (calibre_network.c lines 305 to 362):
loop until no bytes remain, checking the cancellation flag first on
every pass, then the shrinking deadline, then select, then recv.  The
result is the returned error kind (ok on completion); none models an
environment list exhausted with bytes still missing, that is a run the
supplied environment does not determine to its end. -/
def tcp_recv_exact (remaining timeoutMs : Nat) : List RecvIter → Option CalibreErr
  | [] => if remaining = 0 then some .ok else none
  | it :: rest =>
    if remaining = 0 then some .ok
    else if it.cancelled then some .cancelled
    else if it.elapsedMs > timeoutMs then some .timeout
    else match it.sel with
      | .intr => tcp_recv_exact remaining timeoutMs rest
      | .fail => some .socket
      | .timedOut => some .timeout
      | .ready =>
        match it.rcv with
        | .wouldBlock => tcp_recv_exact remaining timeoutMs rest
        | .fail => some .socket
        | .bytes 0 => some .disconnected
        | .bytes (n + 1) =>
          tcp_recv_exact (remaining - min (n + 1) remaining) timeoutMs rest

/-- Bytes delivered by the recv outcome of one loop pass. -/
def iterBytes (it : RecvIter) : Nat :=
  match it.rcv with
  | .bytes n => n
  | _ => 0

/-- True when the recv outcome carries a byte count. -/
def isBytesRes : RecvRes → Bool
  | .bytes _ => true
  | _ => false

/-- A loop pass that makes progress: not cancelled, within the
deadline, select ready, recv delivering a positive byte count. -/
def isProgressIter (timeoutMs : Nat) (it : RecvIter) : Prop :=
  it.cancelled = false ∧ it.elapsedMs ≤ timeoutMs ∧ it.sel = .ready ∧
    isBytesRes it.rcv = true ∧ 0 < iterBytes it

instance (timeoutMs : Nat) (it : RecvIter) :
    Decidable (isProgressIter timeoutMs it) := by
  unfold isProgressIter
  infer_instance

/-- Total bytes delivered by a list of loop passes. -/
def deliveredBytes (l : List RecvIter) : Nat :=
  (l.map iterBytes).sum

theorem tcp_recv_exact_progress_run :
    ∀ (p : List RecvIter) (remaining timeoutMs : Nat) (rest : List RecvIter),
      (∀ it ∈ p, isProgressIter timeoutMs it) →
      deliveredBytes p < remaining →
      tcp_recv_exact remaining timeoutMs (p ++ rest) =
        tcp_recv_exact (remaining - deliveredBytes p) timeoutMs rest := by
  intro p
  induction p with
  | nil =>
    intro remaining timeoutMs rest _ _
    simp [deliveredBytes]
  | cons it p ih =>
    intro remaining timeoutMs rest hall hd
    obtain ⟨hc, he, hsel, hb, hpos⟩ := hall it (List.mem_cons_self it p)
    obtain ⟨n, hn⟩ : ∃ n, it.rcv = .bytes n := by
      cases hrcv : it.rcv with
      | bytes n => exact ⟨n, rfl⟩
      | wouldBlock => simp [isBytesRes, hrcv] at hb
      | fail => simp [isBytesRes, hrcv] at hb
    have hnb : iterBytes it = n := by rw [iterBytes, hn]
    have hdp : deliveredBytes (it :: p) = n + deliveredBytes p := by
      simp [deliveredBytes, hnb]
    rw [hdp] at hd
    have hn0 : 0 < n := by omega
    obtain ⟨m, rfl⟩ : ∃ m, n = m + 1 := ⟨n - 1, by omega⟩
    have hrem0 : remaining ≠ 0 := by omega
    rw [List.cons_append]
    simp only [tcp_recv_exact]
    rw [if_neg hrem0, if_neg (by simp [hc]), if_neg (by omega)]
    simp only [hsel, hn]
    have hmin : min (m + 1) remaining = m + 1 := by omega
    rw [hmin, ih (remaining - (m + 1)) timeoutMs rest
      (fun x hx => hall x (List.mem_cons_of_mem it hx)) (by omega), hdp]
    congr 1
    omega

/-- C7: the exact-length receive primitive returns Timeout when the
deadline has elapsed (checked against the clock and through the select
wait), Disconnected when the peer closes the connection (recv returning
zero), and Cancelled when the cancellation flag is observed; and the
flag is checked on every pass of the loop, not only at entry: after any
prefix of progressing passes that has not yet delivered all requested
bytes, a pass observing the flag still returns Cancelled. -/
theorem tcp_recv_exact_spec :
    (∀ (remaining timeoutMs : Nat) (it : RecvIter) (rest : List RecvIter),
      0 < remaining → it.cancelled = false → it.elapsedMs > timeoutMs →
      tcp_recv_exact remaining timeoutMs (it :: rest) = some .timeout) ∧
    (∀ (remaining timeoutMs : Nat) (it : RecvIter) (rest : List RecvIter),
      0 < remaining → it.cancelled = false → it.elapsedMs ≤ timeoutMs →
      it.sel = .timedOut →
      tcp_recv_exact remaining timeoutMs (it :: rest) = some .timeout) ∧
    (∀ (remaining timeoutMs : Nat) (it : RecvIter) (rest : List RecvIter),
      0 < remaining → it.cancelled = false → it.elapsedMs ≤ timeoutMs →
      it.sel = .ready → it.rcv = .bytes 0 →
      tcp_recv_exact remaining timeoutMs (it :: rest) =
        some .disconnected) ∧
    (∀ (p : List RecvIter) (remaining timeoutMs : Nat) (it : RecvIter)
      (rest : List RecvIter),
      (∀ x ∈ p, isProgressIter timeoutMs x) →
      deliveredBytes p < remaining →
      it.cancelled = true →
      tcp_recv_exact remaining timeoutMs (p ++ it :: rest) =
        some .cancelled) := by
  refine ⟨?_, ?_, ?_, ?_⟩
  · intro remaining timeoutMs it rest h0 hc he
    simp only [tcp_recv_exact]
    rw [if_neg (by omega), if_neg (by simp [hc]), if_pos he]
  · intro remaining timeoutMs it rest h0 hc he hsel
    simp only [tcp_recv_exact]
    rw [if_neg (by omega), if_neg (by simp [hc]), if_neg (by omega)]
    simp only [hsel]
  · intro remaining timeoutMs it rest h0 hc he hsel hrcv
    simp only [tcp_recv_exact]
    rw [if_neg (by omega), if_neg (by simp [hc]), if_neg (by omega)]
    simp only [hsel, hrcv]
  · intro p remaining timeoutMs it rest hall hd hc
    rw [tcp_recv_exact_progress_run p remaining timeoutMs (it :: rest)
      hall hd]
    simp only [tcp_recv_exact]
    rw [if_neg (by omega), if_pos hc]

/-- Witness for tcp_recv_exact_spec: a run that delivers four of ten
requested bytes in its first pass and observes the cancellation flag at
its second pass returns Cancelled. -/
theorem tcp_recv_exact_spec_witness :
    tcp_recv_exact 10 5000
      [⟨false, 100, .ready, .bytes 4⟩, ⟨true, 200, .ready, .bytes 4⟩] =
      some .cancelled :=
  tcp_recv_exact_spec.2.2.2 [⟨false, 100, .ready, .bytes 4⟩] 10 5000
    ⟨true, 200, .ready, .bytes 4⟩ [] (by decide) (by decide) rfl

/-! ## UDP discovery (calibre_network.c lines 165 to 194 and
CalibreDeviceServer.cpp lines 108 to 133) -/

/-- Substring test over character lists, modelling strstr: true iff the
needle occurs contiguously in the haystack (strstr of an empty needle
matches). -/
def containsSeq (needle hay : List Char) : Bool :=
  match hay with
  | [] => needle.isEmpty
  | _ :: t => needle.isPrefixOf hay || containsSeq needle t

/-- Embedding of the client-role discovery responder
calibre_process_discovery (calibre_network.c lines 165 to 194), for one
received datagram: a reply carrying the advertised TCP port as plain
ASCII decimal is sent iff the datagram contains the text hi there or
the text calibre; otherwise the datagram is consumed without any
reply. -/
def calibre_process_discovery (datagram : List Char) (listenPort : Nat) :
    Option (List Char) :=
  if containsSeq ("hi there".toList) datagram ||
      containsSeq ("calibre".toList) datagram then
    some (natToDigits listenPort)
  else none

/-- Embedding of the server-role discovery responder
CalibreDeviceServer::handleUdpDiscovery (CalibreDeviceServer.cpp lines
108 to 133): if no datagram is pending (parsePacket non-positive) the
function returns without reply; otherwise it always replies with the
descriptive string, with no inspection of the datagram content. -/
def handleUdpDiscovery (packetSize : Int) (localIp : List Char)
    (tcpPort : Nat) : Option (List Char) :=
  if packetSize ≤ 0 then none
  else some ("calibre wireless device client (on ".toList ++ localIp ++
    ')' :: ';' :: '8' :: '0' :: ',' :: natToDigits tcpPort)

/-- C8 counterexample: in the server role a pending three-byte datagram
whose content (the text xyz) contains neither hi there nor calibre
still gets a discovery reply, contradicting the claim that a
non-matching datagram is consumed without any reply in both roles.  In
the client role the same datagram draws no reply. -/
theorem discovery_reply_cex :
    (handleUdpDiscovery 3 ("10.0.0.2".toList) 9090).isSome = true ∧
    containsSeq ("hi there".toList) ("xyz".toList) = false ∧
    containsSeq ("calibre".toList) ("xyz".toList) = false ∧
    calibre_process_discovery ("xyz".toList) 9090 = none := by
  refine ⟨by decide, by decide, by decide, by decide⟩

/-- C8 (amended): in the client role a reply (the TCP listening port in
plain ASCII decimal) is sent iff the received datagram contains the
text hi there or the text calibre; in the server role every received
datagram (positive packet size) draws the descriptive reply containing
the semicolon, the content port 80, a comma and the TCP port, with no
content check at all. -/
theorem discovery_reply_spec :
    (∀ (d : List Char) (port : Nat),
      (calibre_process_discovery d port).isSome =
        (containsSeq ("hi there".toList) d ||
          containsSeq ("calibre".toList) d)) ∧
    (∀ (d : List Char) (port : Nat) (r : List Char),
      calibre_process_discovery d port = some r → r = natToDigits port) ∧
    (∀ (ps : Int) (ip : List Char) (port : Nat),
      0 < ps →
      handleUdpDiscovery ps ip port =
        some ("calibre wireless device client (on ".toList ++ ip ++
          ')' :: ';' :: '8' :: '0' :: ',' :: natToDigits port)) ∧
    (∀ (ps : Int) (ip : List Char) (port : Nat),
      ps ≤ 0 → handleUdpDiscovery ps ip port = none) := by
  refine ⟨?_, ?_, ?_, ?_⟩
  · intro d port
    rw [calibre_process_discovery]
    split <;> simp_all
  · intro d port r h
    rw [calibre_process_discovery] at h
    split at h
    · exact (Option.some.inj h).symm
    · exact absurd h (by simp)
  · intro ps ip port hps
    rw [handleUdpDiscovery, if_neg (by omega)]
  · intro ps ip port hps
    rw [handleUdpDiscovery, if_pos hps]

/-- Witness for discovery_reply_spec: a one-byte datagram in the server
role draws the concrete descriptive reply. -/
theorem discovery_reply_spec_witness :
    handleUdpDiscovery 1 ("1.2.3.4".toList) 9090 =
      some ("calibre wireless device client (on ".toList ++
        "1.2.3.4".toList ++ ')' :: ';' :: '8' :: '0' :: ',' ::
        natToDigits 9090) :=
  discovery_reply_spec.2.2.1 1 ("1.2.3.4".toList) 9090 (by decide)

/-! ## NOOP handling (calibre_protocol.c lines 494 to 497,
CalibreDeviceServer.cpp lines 234 to 237) -/

/-- One protocol reply put on the wire by a handler in the client role:
string opcode and payload text. -/
structure Reply where
  opcode : List Char
  payload : List Char
deriving DecidableEq, Repr

/-- Embedding of calibre_handle_noop (calibre_protocol.c lines 494 to
497): the handler takes no payload argument at all and unconditionally
sends one OK reply with the empty object. -/
def calibre_handle_noop : List Reply :=
  [⟨"OK".toList, emptyObj⟩]

/-- Replies sent for a NOOP message as dispatched by calibre_process
(calibre_network.c lines 541 to 542): the decoded payload is not passed
to the handler, so the replies are those of calibre_handle_noop
whatever the payload was. -/
def calibre_noop_replies (payload : List Char) : List Reply :=
  calibre_handle_noop

/-- Embedding of the server-role CalibreDeviceServer::handleNoop
(CalibreDeviceServer.cpp lines 234 to 237): unconditionally sends one
reply with the numeric NOOP opcode (12 in the opcode table of the
library documentation) and the empty object, with no payload
inspection (handleClientMessage line 155 calls it without the decoded
data). -/
def handleNoop : List (Nat × List Char) :=
  [(12, emptyObj)]

/-- C3: for every payload, empty or not, the client-role NOOP handler
sends exactly one OK reply, and the server-role NOOP handler sends
exactly one reply; in particular the non-empty count payload, for which
the claim and the library documentation require zero replies, still
draws one reply.  The concrete count payload shown is the JSON object
with key count and value 3. -/
theorem noop_reply_unconditional :
    (∀ payload : List Char, calibre_noop_replies payload =
      [⟨"OK".toList, emptyObj⟩]) ∧
    calibre_noop_replies
      ('{' :: '"' :: 'c' :: 'o' :: 'u' :: 'n' :: 't' :: '"' :: ':' ::
        '3' :: '}' :: []) =
      [⟨"OK".toList, emptyObj⟩] ∧
    (calibre_noop_replies
      ('{' :: '"' :: 'c' :: 'o' :: 'u' :: 'n' :: 't' :: '"' :: ':' ::
        '3' :: '}' :: [])).length = 1 ∧
    handleNoop.length = 1 := by
  refine ⟨fun payload => rfl, rfl, rfl, rfl⟩

/-! ## Capability flags of the GET_INITIALIZATION_INFO reply
(calibre_protocol.c lines 142 to 203, CalibreDeviceServer.cpp lines 194
to 232) -/

/-- The four capability flags the peer requires, as a record. -/
structure InitCapabilities where
  canStreamBooks : Bool
  canStreamMetadata : Bool
  canReceiveBookBinary : Bool
  canDeleteMultipleBooks : Bool
deriving DecidableEq, Repr

/-- Capability flags of the client-role reply built by
calibre_handle_init_info: the snprintf format string at
calibre_protocol.c lines 165 to 186 hard-codes canStreamBooks true,
canStreamMetadata true, canReceiveBookBinary true and, at line 171,
canDeleteMultipleBooks false. -/
def calibre_handle_init_info_caps : InitCapabilities :=
  { canStreamBooks := true
    canStreamMetadata := true
    canReceiveBookBinary := true
    canDeleteMultipleBooks := false }

/-- Capability flags of the server-role reply built by
CalibreDeviceServer::handleGetInitInfo: the snprintf format string at
CalibreDeviceServer.cpp lines 207 to 226 hard-codes all four flags
true. -/
def handleGetInitInfo_caps : InitCapabilities :=
  { canStreamBooks := true
    canStreamMetadata := true
    canReceiveBookBinary := true
    canDeleteMultipleBooks := true }

/-- C2: the capability JSON of the client-role handler does not set all
four required flags to true: canDeleteMultipleBooks is false, while the
other three are true; the server-role handler does set all four to
true.  The claim that the reply always has all four flags true
therefore fails on the client-role handler. -/
theorem init_info_caps_flags :
    calibre_handle_init_info_caps.canStreamBooks = true ∧
    calibre_handle_init_info_caps.canStreamMetadata = true ∧
    calibre_handle_init_info_caps.canReceiveBookBinary = true ∧
    calibre_handle_init_info_caps.canDeleteMultipleBooks = false ∧
    handleGetInitInfo_caps = ⟨true, true, true, true⟩ := by
  refine ⟨rfl, rfl, rfl, rfl, rfl⟩

/-! ## SEND_BOOK transfer engine, client role (calibre_protocol.c lines
271 to 461)

The handler builds the destination path from the books directory and
the peer-supplied lpath, creates parent directories, opens the file,
acknowledges with willAccept, allocates the chunk buffer and then runs
the chunk-framed receive loop.  The embedding starts after the metadata
parse (lines 317 onward); external-call outcomes come from an explicit
environment. -/

/-- Chunk buffer size CALIBRE_FILE_CHUNK_SIZE.  Modelled from the spec:
the defining header calibre_internal.h is not in the repository
snapshot; the spec fixes the reusable chunk buffer at 4 KiB and the
library documentation shows the same value in the
maxBookContentPacketLen field of the init reply. -/
def CALIBRE_FILE_CHUNK_SIZE : Nat := 4096

/-- Environment of one pass of the chunk-receive loop of
calibre_handle_send_book (lines 357 to 440): the cancellation flag at
line 358, the outcome of the chunk-header receive (recvErr some e when
calibre_recv_msg fails, otherwise the decoded opcode and the parsed
chunk header fields, the json_find calls defaulting to zero and false),
the outcome of the raw-byte loop of lines 402 to 412 (none on success),
the write result and the progress-callback verdict. -/
structure XferIter where
  cancelled : Bool
  recvErr : Option CalibreErr
  recvOpcode : String
  chunkLen : Int
  isLast : Bool
  rawRes : Option CalibreErr
  writeOk : Bool
  progressContinue : Bool
deriving DecidableEq, Repr

/-- Environment of one calibre_handle_send_book run: outcomes of
mkdir_p (line 322), open (line 331), the willAccept send (line 341), the
chunk-buffer malloc (line 349), and one record per pass of the receive
loop. -/
structure SendBookEnv where
  mkdirOk : Bool
  openOk : Bool
  sendRes : Option CalibreErr
  mallocOk : Bool
  iters : List XferIter
deriving DecidableEq, Repr

/-- Outcome of the chunk-receive loop: final error (some ok on a normal
exit, none when the environment ran out before the loop ended), bytes
counted as received, and the chunk lengths for which raw bytes were
read from the socket into the 4 KiB buffer. -/
structure LoopOut where
  err : Option CalibreErr
  received : Nat
  accepted : List Int
deriving DecidableEq, Repr

/-- Embedding of the receive loop of calibre_handle_send_book (lines
357 to 440): while fewer than size bytes are received, check the
cancellation flag, receive a chunk header, require the BOOK_DATA or OK
opcode, require a chunk length strictly positive and at most the chunk
buffer size before any raw byte is read, then read the raw bytes, write
them, count them, run the progress callback, and stop after the chunk
marked last. -/
def sendBookLoop (size : Nat) : Nat → List XferIter → LoopOut
  | received, [] =>
    if received ≥ size then ⟨some .ok, received, []⟩
    else ⟨none, received, []⟩
  | received, it :: rest =>
    if received ≥ size then ⟨some .ok, received, []⟩
    else if it.cancelled then ⟨some .cancelled, received, []⟩
    else match it.recvErr with
      | some e => ⟨some e, received, []⟩
      | none =>
        if it.recvOpcode ≠ "BOOK_DATA" ∧ it.recvOpcode ≠ "OK" then
          ⟨some .protocol, received, []⟩
        else if it.chunkLen ≤ 0 ∨
            it.chunkLen > (CALIBRE_FILE_CHUNK_SIZE : Int) then
          ⟨some .protocol, received, []⟩
        else match it.rawRes with
          | some e => ⟨some e, received, [it.chunkLen]⟩
          | none =>
            if it.writeOk = false then
              ⟨some .writeFile, received, [it.chunkLen]⟩
            else if it.progressContinue = false then
              ⟨some .cancelled, received + it.chunkLen.toNat, [it.chunkLen]⟩
            else if it.isLast then
              ⟨some .ok, received + it.chunkLen.toNat, [it.chunkLen]⟩
            else
              let out := sendBookLoop size (received + it.chunkLen.toNat) rest
              ⟨out.err, out.received, it.chunkLen :: out.accepted⟩

/-- Visible effects of one calibre_handle_send_book run. -/
structure SendBookResult where
  /-- Returned error code; none when the environment ran out mid-loop
  (the handler would still be blocked in the loop). -/
  err : Option CalibreErr
  /-- True when open was called on the destination path. -/
  openAttempted : Bool
  /-- True when open succeeded, creating or truncating the file. -/
  fileCreated : Bool
  /-- True when the destination file is still on storage when the
  handler returns (meaningful for completed runs). -/
  fileRemains : Bool
  /-- The destination path, books directory joined with the
  peer-supplied lpath by the snprintf of line 319. -/
  fullPath : List Char
  /-- Bytes counted as received by the loop. -/
  received : Nat
  /-- Chunk lengths for which raw bytes were read into the buffer. -/
  acceptedChunks : List Int
  /-- True when the book-received callback was invoked. -/
  bookCallback : Bool
deriving DecidableEq, Repr

/-- Embedding of calibre_handle_send_book (calibre_protocol.c lines 271
to 461) from the path construction of line 319 onward, for parsed
metadata lpath and size.  No validation of any kind is performed on the
peer-supplied lpath or size: the path goes straight to mkdir_p and
open.  On mkdir or open failure an ERROR reply is sent and the handler
returns a write error; a willAccept send failure or a chunk-buffer
allocation failure closes the file descriptor and returns without
deleting the created file; after the loop, the file is kept exactly
when the loop ended with ok and the received count equals the declared
size (then the book callback runs), and is unlinked otherwise. -/
def calibre_handle_send_book (booksDir lpath : List Char) (size : Nat)
    (env : SendBookEnv) : SendBookResult :=
  let fullPath := booksDir ++ '/' :: lpath
  if env.mkdirOk = false then
    ⟨some .writeFile, false, false, false, fullPath, 0, [], false⟩
  else if env.openOk = false then
    ⟨some .writeFile, true, false, false, fullPath, 0, [], false⟩
  else match env.sendRes with
    | some e => ⟨some e, true, true, true, fullPath, 0, [], false⟩
    | none =>
      if env.mallocOk = false then
        ⟨some .nomem, true, true, true, fullPath, 0, [], false⟩
      else
        let out := sendBookLoop size 0 env.iters
        match out.err with
        | none => ⟨none, true, true, true, fullPath, out.received,
            out.accepted, false⟩
        | some e =>
          if e = .ok ∧ out.received = size then
            ⟨some .ok, true, true, true, fullPath, out.received,
              out.accepted, true⟩
          else
            ⟨some e, true, true, false, fullPath, out.received,
              out.accepted, false⟩

theorem sendBookLoop_accepted_bounds :
    ∀ (iters : List XferIter) (size received : Nat) (l : Int),
      l ∈ (sendBookLoop size received iters).accepted →
      0 < l ∧ l ≤ (CALIBRE_FILE_CHUNK_SIZE : Int) := by
  intro iters
  induction iters with
  | nil =>
    intro size received l hl
    simp only [sendBookLoop] at hl
    split at hl <;> simp at hl
  | cons it rest ih =>
    intro size received l hl
    simp only [sendBookLoop] at hl
    split at hl
    · simp at hl
    · split at hl
      · simp at hl
      · split at hl
        · simp at hl
        · split at hl
          · simp at hl
          · split at hl
            · simp at hl
            · next hgate =>
              push_neg at hgate
              split at hl
              · simp only [List.mem_singleton] at hl
                subst hl
                omega
              · split at hl
                · simp only [List.mem_singleton] at hl
                  subst hl
                  omega
                · split at hl
                  · simp only [List.mem_singleton] at hl
                    subst hl
                    omega
                  · split at hl
                    · simp only [List.mem_singleton] at hl
                      subst hl
                      omega
                    · simp only [List.mem_cons] at hl
                      rcases hl with hl | hl
                      · subst hl
                        omega
                      · exact ih size (received + it.chunkLen.toNat) l hl

/-- C9: in the chunk-framed transfer of calibre_handle_send_book, raw
chunk bytes are read into the fixed 4 KiB buffer only for headers whose
length is strictly positive and at most the buffer size, so every
accepted chunk length l satisfies 1 at most l at most 4096 and writes
never exceed the buffer capacity; and a first header whose length fails
that test (zero, negative or oversized) makes the handler return a
protocol error with no raw chunk bytes read at all. -/
theorem send_book_chunk_header_guard :
    (∀ (booksDir lpath : List Char) (size : Nat) (env : SendBookEnv)
      (l : Int),
      l ∈ (calibre_handle_send_book booksDir lpath size env).acceptedChunks →
      0 < l ∧ l ≤ (CALIBRE_FILE_CHUNK_SIZE : Int)) ∧
    (∀ (booksDir lpath : List Char) (size : Nat) (env : SendBookEnv)
      (it : XferIter) (rest : List XferIter),
      env.mkdirOk = true → env.openOk = true → env.sendRes = none →
      env.mallocOk = true → env.iters = it :: rest → 0 < size →
      it.cancelled = false → it.recvErr = none →
      (it.recvOpcode = "BOOK_DATA" ∨ it.recvOpcode = "OK") →
      (it.chunkLen ≤ 0 ∨ it.chunkLen > (CALIBRE_FILE_CHUNK_SIZE : Int)) →
      (calibre_handle_send_book booksDir lpath size env).err =
        some .protocol ∧
      (calibre_handle_send_book booksDir lpath size env).acceptedChunks =
        []) := by
  constructor
  · intro booksDir lpath size env l hl
    simp only [calibre_handle_send_book] at hl
    split at hl
    · simp at hl
    · split at hl
      · simp at hl
      · split at hl
        · simp at hl
        · split at hl
          · simp at hl
          · split at hl
            · exact sendBookLoop_accepted_bounds env.iters size 0 l
                (by simpa using hl)
            · split at hl
              · exact sendBookLoop_accepted_bounds env.iters size 0 l
                  (by simpa using hl)
              · exact sendBookLoop_accepted_bounds env.iters size 0 l
                  (by simpa using hl)
  · intro booksDir lpath size env it rest hmk hop hsend hmal hit hsz hcan
      hre hopc hgate
    have hcond : ¬(it.recvOpcode ≠ "BOOK_DATA" ∧ it.recvOpcode ≠ "OK") := by
      rcases hopc with h | h <;> simp [h]
    have hloop : sendBookLoop size 0 (it :: rest) =
        ⟨some .protocol, 0, []⟩ := by
      simp only [sendBookLoop]
      rw [if_neg (by omega), if_neg (by simp [hcan])]
      simp only [hre]
      rw [if_neg hcond, if_pos hgate]
    simp only [calibre_handle_send_book, hit, hloop]
    rw [if_neg (by simp [hmk]), if_neg (by simp [hop])]
    simp only [hsend]
    rw [if_neg (by simp [hmal])]
    rw [if_neg (by simp)]
    exact ⟨rfl, rfl⟩

/-- Witness for send_book_chunk_header_guard: a first chunk header
declaring 9999 bytes (above the 4096-byte buffer) makes the handler
return a protocol error. -/
theorem send_book_chunk_header_guard_witness :
    (calibre_handle_send_book ("/sd".toList) ("b.epub".toList) 10
      ⟨true, true, none, true,
        [⟨false, none, "BOOK_DATA", 9999, false, none, true, true⟩]⟩).err =
      some .protocol :=
  (send_book_chunk_header_guard.2 ("/sd".toList) ("b.epub".toList) 10
    ⟨true, true, none, true,
      [⟨false, none, "BOOK_DATA", 9999, false, none, true, true⟩]⟩
    ⟨false, none, "BOOK_DATA", 9999, false, none, true, true⟩ []
    rfl rfl rfl rfl rfl (by omega) rfl rfl (Or.inl rfl)
    (Or.inr (by decide))).1

/-- C1: evaluation of the SEND_BOOK handler at metadata carrying a
parent-directory traversal lpath shows that no validation occurs: the
handler builds the destination path by joining the books directory with
the peer-supplied lpath unchanged, hands it to mkdir_p and open (the
file is created), and the run fails only later for an unrelated reason
(here the peer disconnecting during the first chunk receive).  The
claim that such metadata aborts the transfer before a file handle is
opened fails. -/
theorem send_book_validation_missing_cex :
    calibre_handle_send_book ("/sd/Calibre".toList)
        ("../../etc/passwd".toList) 1000
        ⟨true, true, none, true,
          [⟨false, some .disconnected, "", 0, false, none, true, true⟩]⟩ =
      ⟨some .disconnected, true, true, false,
        "/sd/Calibre/../../etc/passwd".toList, 0, [], false⟩ ∧
    containsSeq ("..".toList)
      ("/sd/Calibre/../../etc/passwd".toList) = true := by
  refine ⟨by decide, by decide⟩

/-- C4: evaluation of the SEND_BOOK handler at a run where the
chunk-buffer allocation fails right after open has created the
destination file shows that the handler returns the out-of-memory error
with the created file still on storage: the early-return paths between
open and the receive loop (willAccept send failure at line 343, malloc
failure at line 351) close the descriptor but never unlink the file,
so an empty partial file remains, contradicting the claim that every
non-success termination deletes the partially written file. -/
theorem send_book_partial_file_cleanup_cex :
    calibre_handle_send_book ("/sd/Calibre".toList) ("b.epub".toList) 1000
        ⟨true, true, none, false, []⟩ =
      ⟨some .nomem, true, true, true, "/sd/Calibre/b.epub".toList, 0, [],
        false⟩ := by
  decide

/-! ## Raw-streaming transfer, server role (CalibreDeviceServer.cpp
lines 487 to 549)

streamBookToFile reads raw bytes from the TCP client into a 4096-byte
stack buffer and writes them through to the destination file until
expectedSize bytes have arrived, removing the file on disconnect,
timeout or write error. -/

/-- Stream buffer size, the STREAM_BUFFER_SIZE constant of
CalibreDeviceServer.cpp line 16. -/
def STREAM_BUFFER_SIZE : Nat := 4096

/-- Environment of one pass of the streaming loop: whether the client
is still connected at the check of line 501, the byte count reported by
available at line 508, whether the no-data timeout of line 510 has
expired when available is zero, the byte count returned by read (a
socket read never returns more than asked for, modelled by clamping),
and the write outcome. -/
structure StreamIter where
  connected : Bool
  available : Nat
  timedOut : Bool
  readBytes : Nat
  writeOk : Bool
deriving DecidableEq, Repr

/-- Outcome of one streamBookToFile run: the returned flag, the bytes
received (equal to the bytes written to the file), and whether the
destination file was removed. -/
structure StreamOut where
  success : Bool
  received : Nat
  fileRemoved : Bool
deriving DecidableEq, Repr

/-- Embedding of the loop of CalibreDeviceServer::streamBookToFile
(lines 500 to 548): while fewer than expectedSize bytes have been
received, a disconnected client or an expired no-data timeout removes
the file and fails; otherwise the read size is capped at the minimum of
the available bytes, the 4096-byte stream buffer and the bytes still
missing, a failed write removes the file and fails, and a successful
write advances the count.  none models an environment list exhausted
before the loop ended. -/
def streamBookToFile (expectedSize : Nat) : Nat → List StreamIter →
    Option StreamOut
  | received, [] =>
    if received ≥ expectedSize then some ⟨true, received, false⟩ else none
  | received, it :: rest =>
    if received ≥ expectedSize then some ⟨true, received, false⟩
    else if it.connected = false then some ⟨false, received, true⟩
    else if it.available = 0 then
      if it.timedOut then some ⟨false, received, true⟩
      else streamBookToFile expectedSize received rest
    else
      let toRead := min it.available
        (min STREAM_BUFFER_SIZE (expectedSize - received))
      let bytesRead := min it.readBytes toRead
      if 0 < bytesRead then
        if it.writeOk = false then some ⟨false, received, true⟩
        else streamBookToFile expectedSize (received + bytesRead) rest
      else streamBookToFile expectedSize received rest

theorem streamBookToFile_received_le :
    ∀ (iters : List StreamIter) (expectedSize received : Nat)
      (out : StreamOut),
      received ≤ expectedSize →
      streamBookToFile expectedSize received iters = some out →
      out.received ≤ expectedSize ∧
        (out.success = true → out.received = expectedSize) := by
  intro iters
  induction iters with
  | nil =>
    intro expectedSize received out hle h
    simp only [streamBookToFile] at h
    split at h
    · next hge =>
      obtain rfl := Option.some.inj h
      exact ⟨hle, fun _ => by show received = expectedSize; omega⟩
    · simp at h
  | cons it rest ih =>
    intro expectedSize received out hle h
    simp only [streamBookToFile] at h
    split at h
    · next hge =>
      obtain rfl := Option.some.inj h
      exact ⟨hle, fun _ => by show received = expectedSize; omega⟩
    · split at h
      · obtain rfl := Option.some.inj h
        exact ⟨hle, fun hs => by simp at hs⟩
      · split at h
        · split at h
          · obtain rfl := Option.some.inj h
            exact ⟨hle, fun hs => by simp at hs⟩
          · exact ih expectedSize received out hle h
        · next havail =>
          split at h
          · next hpos =>
            split at h
            · obtain rfl := Option.some.inj h
              exact ⟨hle, fun hs => by simp at hs⟩
            · refine ih expectedSize
                (received + min it.readBytes (min it.available
                  (min STREAM_BUFFER_SIZE (expectedSize - received))))
                out (by omega) h
          · exact ih expectedSize received out hle h

/-- C10: in the server-role raw-streaming transfer, each read is capped
at the minimum of the available bytes, the 4096-byte stream buffer and
the bytes still missing, so for every completed run starting from zero
bytes received the final received count never exceeds the declared
expectedSize (no byte beyond the declared book size is consumed from
the TCP stream), and a successful run has received, and therefore
written, exactly expectedSize bytes. -/
theorem streamBookToFile_spec
    (expectedSize : Nat) (iters : List StreamIter) (out : StreamOut)
    (h : streamBookToFile expectedSize 0 iters = some out) :
    out.received ≤ expectedSize ∧
      (out.success = true → out.received = expectedSize) :=
  streamBookToFile_received_le iters expectedSize 0 out
    (Nat.zero_le _) h

/-- Witness for streamBookToFile_spec: a run expecting eight bytes that
receives five and then three succeeds with exactly eight bytes
received. -/
theorem streamBookToFile_spec_witness :
    streamBookToFile 8 0
      [⟨true, 5, false, 5, true⟩, ⟨true, 10, false, 10, true⟩] =
      some ⟨true, 8, false⟩ ∧ (8 : Nat) ≤ 8 :=
  ⟨by decide,
    (streamBookToFile_spec 8
      [⟨true, 5, false, 5, true⟩, ⟨true, 10, false, 10, true⟩]
      ⟨true, 8, false⟩ (by decide)).1⟩
